import Mathlib

/-!
# Verification of the `acalib` core `Cube` against its specification

This file gives a shallow embedding of `src/core/cube.py` (class `Cube`) and
proves or refutes the frozen claims about it.

Modelling decisions:

* Floating-point sample values are modelled by `FV`: either `nan` or a finite
  rational.  The source only ever tests invalidity with `np.isnan`, and the
  claims under scrutiny are about index arithmetic, shapes and error paths,
  not about rounding, so exact arithmetic on the finite part is faithful.
* A numpy `ndarray` of fixed rank 3 is modelled by `Arr3`: a shape vector and
  a total valuation on index vectors (entries outside the shape are never
  consulted by any statement below).  The raw constructor input, whose rank is
  what the constructor validates, is modelled by `NDArr` with a `List ℕ`
  shape.
* The FITS header is modelled by `Meta`, a record that always carries the
  entries (`BSCALE`, `BZERO`, `BUNIT`) the constructor reads; the claims all
  presuppose these required entries are present.  The astropy WCS object is
  an external collaborator and is not modelled (no claim mentions it).
* `log.warning` calls are modelled by counting them (`Region.warnings`); the
  logged text itself carries no further behaviour.
* In `_slice`, the corrections for `lower > shape` and `upper > shape`
  execute `upper[mask] = self.data.shape[mask]`.  `self.data.shape` is a
  Python tuple, and indexing a tuple with a (length-3) boolean numpy array
  raises `TypeError`, so whenever either of those masks has a true component
  the call emits its warning and then raises; `upper` is never modified on
  any path.  `_slice` therefore returns the warnings emitted so far together
  with either the resolved ranges or that error.
* `data[sli] += flux[...]` requires, in numpy, that the sliced patch have the
  same shape as the target region; a mismatch raises `ValueError`.  This is
  modelled by `Cube.add_flux` returning `Except`: besides the propagated
  `_slice` error, the `.error` branch covers the numpy broadcast error, and
  also the degenerate slice combinations (wrapped negative indices, inverted
  bounds) that numpy would reinterpret; no claim below exercises those
  degenerate combinations on the `.ok` path.
-/

set_option autoImplicit false

/-- A floating-point sample: `nan` or a finite value.  `np.isnan` is the only
validity test the source performs, so infinities are not distinguished; the
finite values are taken in `ℤ` (exact arithmetic — the claims below are about
index arithmetic, shapes and error paths, not rounding). -/
inductive FV where
  | nan : FV
  | fin : ℤ → FV
deriving DecidableEq

namespace FV

/-- Addition with IEEE nan propagation. -/
def add : FV → FV → FV
  | nan, _ => nan
  | _, nan => nan
  | fin a, fin b => fin (a + b)

/-- Multiplication with IEEE nan propagation. -/
def mul : FV → FV → FV
  | nan, _ => nan
  | _, nan => nan
  | fin a, fin b => fin (a * b)

/-- `np.isnan` on a single value. -/
def isNan : FV → Bool
  | nan => true
  | fin _ => false

end FV

/-- `ndarray.sum` over a list of values: nan-propagating (the source uses
`data.sum(axis=0)`, not `nansum`, to collapse the polarization axis). -/
def sumFV (xs : List FV) : FV := xs.foldr FV.add (FV.fin 0)

/-- A numpy array of arbitrary rank: the raw constructor input, whose rank
(`len(data.shape)`) is what `Cube.__init__` validates. -/
structure NDArr where
  shape : List ℕ
  val : List ℕ → FV

/-- A rank-3 numpy array: shape vector and valuation on index vectors. -/
structure Arr3 where
  shape : Fin 3 → ℕ
  val : (Fin 3 → ℕ) → FV

/-- The shape of a rank-3 array, as integers (for bound comparisons). -/
def Arr3.shapeZ (a : Arr3) : Fin 3 → ℤ := fun i => (a.shape i : ℤ)

/-- The FITS header entries read by `Cube.__init__`.  The claims presuppose
the required entries are present, so lookups are total. -/
structure Meta where
  bscale : ℤ
  bzero : ℤ
  bunit : String

/-- Error message of the 4-dimensionality check in `Cube.__init__`
(`log.error` followed by `raise TypeError`). -/
def err4D : String := "Only 4D data (RA-DEC-FREQ-STOKES) is allowed for now"

/-- numpy error message when `data[sli] += flux[...]` shapes mismatch. -/
def errBroadcast : String := "operands could not be broadcast together"

/-- numpy error message of `nanargmax` / `nanargmin` on all-NaN input. -/
def errAllNaN : String := "All-NaN slice encountered"

/-- Python error message when a tuple is indexed with a boolean array, as
`self.data.shape[ulc]` and `self.data.shape[uuc]` do in `Cube._slice`. -/
def errTuple : String := "only integer scalar arrays can be converted to a scalar index"

/-- The state held by a constructed `Cube` (an `NDData`): the collapsed 3D
samples, the mask exactly as computed (with its own shape), the header and
the normalized unit string. -/
structure Cube where
  data : Arr3
  maskShape : List ℕ
  mask : List ℕ → Bool
  meta : Meta
  unit : String

instance : Inhabited Cube :=
  ⟨{ data := { shape := fun _ => 0, val := fun _ => FV.fin 0 },
     maskShape := [], mask := fun _ => false,
     meta := { bscale := 0, bzero := 0, bunit := "" }, unit := "" }⟩

/-- `Cube.__init__`.  In source order: the mask is taken as `np.isnan(data)`
on the raw input; the unit string is lowercased and `"jy"` is rewritten to
`"Jy"`; if the input is not 4-dimensional a `TypeError` is raised (no object
is produced); otherwise the polarization axis is collapsed by summation and
the result is rescaled: `data = data.sum(axis=0) * bscale + bzero`. -/
def Cube.init (raw : NDArr) (meta : Meta) : Except String Cube :=
  let mask : List ℕ → Bool := fun ix => (raw.val ix).isNan
  let bsu := (meta.bunit.toLower).replace "jy" "Jy"
  if raw.shape.length ≠ 4 then
    .error err4D
  else
    .ok { data :=
            { shape := fun i => raw.shape.getD (i.val + 1) 0,
              val := fun v =>
                FV.add
                  (FV.mul
                    (sumFV ((List.range (raw.shape.getD 0 0)).map
                      (fun p => raw.val [p, v 0, v 1, v 2])))
                    (FV.fin meta.bscale))
                  (FV.fin meta.bzero) },
          maskShape := raw.shape,
          mask := mask,
          meta := meta,
          unit := bsu }

/-- `Cube.copy`: `copy.deepcopy(self)`.  In this pure model a value is its
own deep copy. -/
def Cube.copy (c : Cube) : Cube := c

/-- `Cube.empty_like`: `dat = np.zeros_like(self.data); Cube(dat, self.meta)`.
Note that `self.data` is the already-collapsed 3D array. -/
def Cube.empty_like (c : Cube) : Except String Cube :=
  Cube.init
    { shape := [c.data.shape 0, c.data.shape 1, c.data.shape 2],
      val := fun _ => FV.fin 0 }
    c.meta

/-- `self.data.shape` as an integer vector, for the comparisons in
`Cube._slice`. -/
def Cube.shape3 (c : Cube) : Fin 3 → ℤ := fun i => (c.data.shape i : ℤ)

/-- The three half-open ranges produced by a completed `Cube._slice` call. -/
structure Region where
  lo : Fin 3 → ℤ
  hi : Fin 3 → ℤ

/-- The outcome of `Cube._slice`: the number of `log.warning` calls emitted
before the call completed or raised, and either the resolved ranges or the
error the call raised. -/
structure SliceResult where
  warnings : ℕ
  result : Except String Region

/-- `Cube._slice`.  Defaults: `lower=(0,0,0)`, `upper=self.data.shape`.  The
four boolean masks are computed from the ORIGINAL bounds, then the
corrections run in source order.  `lower[llc] = 0` (line 76) and
`lower[luc] = 0` (line 81) are ordinary masked ndarray assignments — note
the latter zeroes LOWER while its warning announces a correction of the
negative upper.  The other two corrections (lines 79 and 85) execute
`upper[mask] = self.data.shape[mask]`: `self.data.shape` is a tuple, and
indexing a tuple with a boolean array raises `TypeError`, so whenever `ulc`
(resp. `uuc`) has a true component the call warns and then raises; `upper`
is never modified on any path. -/
def Cube._slice (c : Cube) (lower upper : Option (Fin 3 → ℤ)) : SliceResult :=
  let l := lower.getD (fun _ => 0)
  let u := upper.getD c.shape3
  let llc : Fin 3 → Prop := fun i => l i < 0
  let ulc : Fin 3 → Prop := fun i => c.shape3 i < l i
  let luc : Fin 3 → Prop := fun i => u i < 0
  let uuc : Fin 3 → Prop := fun i => c.shape3 i < u i
  let l1 : Fin 3 → ℤ := fun i => if llc i then 0 else l i
  let w1 : ℕ := if llc 0 ∨ llc 1 ∨ llc 2 then 1 else 0
  if ulc 0 ∨ ulc 1 ∨ ulc 2 then
    { warnings := w1 + 1, result := .error errTuple }
  else
    let l2 : Fin 3 → ℤ := fun i => if luc i then 0 else l1 i
    let w2 : ℕ := if luc 0 ∨ luc 1 ∨ luc 2 then 1 else 0
    if uuc 0 ∨ uuc 1 ∨ uuc 2 then
      { warnings := w1 + w2 + 1, result := .error errTuple }
    else
      { warnings := w1 + w2, result := .ok { lo := l2, hi := u } }

/-- The patch crop start computed by `Cube.add_flux` from the resolved
region: `fl = [0,0,0]`, then
`if sli[i].start == 0: fl[i] = flux.shape[i] - sli[i].stop`. -/
def fluxLo (flux : Arr3) (r : Region) : Fin 3 → ℤ := fun i =>
  if r.lo i = 0 then flux.shapeZ i - r.hi i else 0

/-- The patch crop stop computed by `Cube.add_flux` from the resolved
region: `fu = flux.shape`, then
`if sli[i].stop == shape[i]: fu[i] = sli[i].stop - sli[i].start`. -/
def Cube.fluxHi (c : Cube) (flux : Arr3) (r : Region) : Fin 3 → ℤ := fun i =>
  if r.hi i = c.shape3 i then r.hi i - r.lo i else flux.shapeZ i

/-- Well-formedness of the in-place addition `data[sli] += flux[fl:fu]`: the
target region and the cropped patch lie inside their arrays and have equal
extents.  When this fails, numpy raises (broadcast mismatch), or — for
wrapped negative indices — silently reinterprets; both are mapped to the
`errBroadcast` branch of `add_flux`. -/
def Cube.fluxOk (c : Cube) (flux : Arr3) (r : Region) : Prop := ∀ i,
  0 ≤ r.lo i ∧ r.hi i ≤ c.shape3 i ∧
  0 ≤ fluxLo flux r i ∧
  fluxLo flux r i ≤ c.fluxHi flux r i ∧
  c.fluxHi flux r i ≤ flux.shapeZ i ∧
  c.fluxHi flux r i - fluxLo flux r i = r.hi i - r.lo i

instance (c : Cube) (flux : Arr3) (r : Region) :
    Decidable (c.fluxOk flux r) := by
  unfold Cube.fluxOk; exact inferInstance

/-- `Cube.add_flux`: resolve the region (propagating the `TypeError` that
`_slice` raises on an out-of-range upper or lower-above-shape bound),
compute the patch crop `fl:fu`, and add the cropped patch elementwise in
place: `self.data[sli] += flux[fl[0]:fu[0], fl[1]:fu[1], fl[2]:fu[2]]`. -/
def Cube.add_flux (c : Cube) (flux : Arr3) (lower upper : Option (Fin 3 → ℤ)) :
    Except String Cube :=
  match (c._slice lower upper).result with
  | .error e => .error e
  | .ok r =>
    if c.fluxOk flux r then
      .ok { c with data :=
        { shape := c.data.shape,
          val := fun v =>
            if ∀ i, r.lo i ≤ (v i : ℤ) ∧ (v i : ℤ) < r.hi i then
              FV.add (c.data.val v)
                (flux.val (fun i =>
                  ((v i : ℤ) - r.lo i + fluxLo flux r i).toNat))
            else c.data.val v } }
    else .error errBroadcast

/-- `np.unravel_index(n, shape)` for a rank-3 shape in C order. -/
def unravel3 (shape : Fin 3 → ℕ) (n : ℕ) : Fin 3 → ℕ :=
  ![n / (shape 1 * shape 2), (n / shape 2) % shape 1, n % shape 2]

/-- All index vectors of a rank-3 shape, in flat C order — the order in which
`nanargmax` / `nanargmin` scan the array. -/
def indexList (shape : Fin 3 → ℕ) : List (Fin 3 → ℕ) :=
  (List.range (shape 0 * shape 1 * shape 2)).map (unravel3 shape)

/-- The finite (non-NaN) entries of the samples, with their indices, in flat
C order — the candidates `nanargmax` / `nanargmin` choose among. -/
def Cube.validEntries (c : Cube) : List ((Fin 3 → ℕ) × ℤ) :=
  (indexList c.data.shape).filterMap (fun v =>
    match c.data.val v with
    | FV.nan => none
    | FV.fin q => some (v, q))

/-- `Cube.max`: `index = np.unravel_index(np.nanargmax(self.data), shape);
y = self.data[index]; return (y, index)`.  `nanargmax` raises `ValueError`
on all-NaN input; ties keep the first flat index. -/
def Cube.max (c : Cube) : Except String (FV × (Fin 3 → ℕ)) :=
  match c.validEntries with
  | [] => .error errAllNaN
  | x :: xs =>
      let b := xs.foldl (fun b y => if b.2 < y.2 then y else b) x
      .ok (c.data.val b.1, b.1)

/-- `Cube.min`: as `Cube.max` with `np.nanargmin`. -/
def Cube.min (c : Cube) : Except String (FV × (Fin 3 → ℕ)) :=
  match c.validEntries with
  | [] => .error errAllNaN
  | x :: xs =>
      let b := xs.foldl (fun b y => if y.2 < b.2 then y else b) x
      .ok (c.data.val b.1, b.1)

-- Concrete instances used by the closed theorems below.

/-- A header with scale 1, offset 0. -/
def meta0 : Meta := { bscale := 1, bzero := 0, bunit := "JY/BEAM" }

/-- A raw 4D all-zero input of shape `(1, 4, 5, 6)`. -/
def raw456 : NDArr := { shape := [1, 4, 5, 6], val := fun _ => FV.fin 0 }

/-- The cube constructed from `raw456`: collapsed shape `(4, 5, 6)`. -/
def cube456 : Cube :=
  match Cube.init raw456 meta0 with
  | .ok c => c
  | .error _ => default

/-- A raw 4D all-NaN input of shape `(1, 1, 1, 1)`. -/
def rawNaN : NDArr := { shape := [1, 1, 1, 1], val := fun _ => FV.nan }

/-- The cube constructed from `rawNaN`: every sample is NaN. -/
def cubeNaN : Cube :=
  match Cube.init rawNaN meta0 with
  | .ok c => c
  | .error _ => default

/-- A `1 × 1 × 1` patch holding the value `2`. -/
def flux111 : Arr3 := { shape := ![1, 1, 1], val := fun _ => FV.fin 2 }

/-- A `5 × 5 × 6` patch holding the value `1`. -/
def flux556 : Arr3 := { shape := ![5, 5, 6], val := fun _ => FV.fin 1 }

/-- A `4 × 5 × 6` patch holding the value `1`. -/
def flux456 : Arr3 := { shape := ![4, 5, 6], val := fun _ => FV.fin 1 }

-- Shared helper lemmas.

theorem slice_ok_of_le (c : Cube) (l u : Fin 3 → ℤ)
    (hl : ∀ i, l i ≤ c.shape3 i) (hu : ∀ i, u i ≤ c.shape3 i) :
    ∃ r : Region, (c._slice (some l) (some u)).result = Except.ok r ∧
      (∀ i, r.lo i = if u i < 0 then 0 else if l i < 0 then 0 else l i) ∧
      (∀ i, r.hi i = u i) ∧
      (c._slice (some l) (some u)).warnings =
        (if l 0 < 0 ∨ l 1 < 0 ∨ l 2 < 0 then 1 else 0) +
        (if u 0 < 0 ∨ u 1 < 0 ∨ u 2 < 0 then 1 else 0) := by
  have hnul : ¬(c.shape3 0 < l 0 ∨ c.shape3 1 < l 1 ∨ c.shape3 2 < l 2) := by
    have g0 := hl 0; have g1 := hl 1; have g2 := hl 2; omega
  have hnuu : ¬(c.shape3 0 < u 0 ∨ c.shape3 1 < u 1 ∨ c.shape3 2 < u 2) := by
    have g0 := hu 0; have g1 := hu 1; have g2 := hu 2; omega
  simp only [Cube._slice, Option.getD]
  rw [if_neg hnul, if_neg hnuu]
  exact ⟨_, rfl, fun i => rfl, fun i => rfl, rfl⟩

theorem slice_error_of_upper_excess (c : Cube) (l u : Fin 3 → ℤ) (i : Fin 3)
    (h : c.shape3 i < u i) :
    (c._slice (some l) (some u)).result = Except.error errTuple := by
  simp only [Cube._slice, Option.getD]
  by_cases hul : c.shape3 0 < l 0 ∨ c.shape3 1 < l 1 ∨ c.shape3 2 < l 2
  · rw [if_pos hul]
  · rw [if_neg hul]
    have hd : c.shape3 0 < u 0 ∨ c.shape3 1 < u 1 ∨ c.shape3 2 < u 2 := by
      fin_cases i
      · exact Or.inl h
      · exact Or.inr (Or.inl h)
      · exact Or.inr (Or.inr h)
    rw [if_pos hd]

theorem mem_indexList_lt {shape : Fin 3 → ℕ} {v : Fin 3 → ℕ}
    (hv : v ∈ indexList shape) : ∀ i, v i < shape i := by
  rcases List.mem_map.mp hv with ⟨n, hn, rfl⟩
  rw [List.mem_range] at hn
  have hp : 0 < shape 0 * shape 1 * shape 2 := lt_of_le_of_lt (Nat.zero_le n) hn
  have h0 : shape 0 ≠ 0 := by intro h; rw [h] at hp; simp at hp
  have h1 : shape 1 ≠ 0 := by intro h; rw [h] at hp; simp at hp
  have h2 : shape 2 ≠ 0 := by intro h; rw [h] at hp; simp at hp
  intro i
  fin_cases i
  · show n / (shape 1 * shape 2) < shape 0
    rw [Nat.div_lt_iff_lt_mul (by positivity)]
    calc n < shape 0 * shape 1 * shape 2 := hn
    _ = shape 0 * (shape 1 * shape 2) := by ring
  · show (n / shape 2) % shape 1 < shape 1
    exact Nat.mod_lt _ (Nat.pos_of_ne_zero h1)
  · show n % shape 2 < shape 2
    exact Nat.mod_lt _ (Nat.pos_of_ne_zero h2)

-- Claim theorems.

/-- Claim C1 (refuted; code bug).  The spec says: if `lower[i] > shape[i]`
the resolved `lower[i]` becomes `shape[i]` (with a warning), and if
`upper[i] < 0` the resolved `upper[i]` becomes `0` (with a warning).  On a
cube of shape `(4,5,6)`: with `lower=(5,0,0), upper=(3,5,6)` the code warns
("Correcting to max") and then raises `TypeError` at line 79 — the shape
tuple is indexed with a boolean array — so `lower` is never clamped and the
call never returns; with `lower=(2,0,0), upper=(-2,5,6)` the code warns
about the negative upper, then zeroes `lower[0]` (line 81) and returns with
`upper[0] = -2` untouched. -/
theorem slice_correction_targets_swapped :
    (cube456._slice (some ![5, 0, 0]) (some ![3, 5, 6])).result =
      Except.error errTuple ∧
    (∃ r, (cube456._slice (some ![2, 0, 0]) (some ![-2, 5, 6])).result =
        Except.ok r ∧ r.lo 0 = 0 ∧ r.hi 0 = -2) :=
  ⟨rfl, ⟨_, rfl, rfl, rfl⟩⟩

/-- Claim C2 (refuted; code bug).  Region resolution does not always return
ranges within `[0, shape[i]]`: on a cube of shape `(4,5,6)`,
`upper=(-1,5,6)` makes the call return with upper endpoint `-1 < 0` (the
negative-upper correction zeroes `lower` instead of `upper`), and
`lower=(9,0,0)` makes the call raise `TypeError` at line 79, so no valid
ranges are produced at all. -/
theorem slice_resolved_range_out_of_bounds :
    (∃ r, (cube456._slice (some ![0, 0, 0]) (some ![-1, 5, 6])).result =
        Except.ok r ∧ r.hi 0 = -1) ∧
    (cube456._slice (some ![9, 0, 0]) (some ![4, 5, 6])).result =
      Except.error errTuple ∧
    cube456.shape3 0 = 4 :=
  ⟨⟨_, rfl, rfl⟩, rfl, rfl⟩

/-- Claim C3 (refuted; code bug).  `empty_like` never succeeds: it feeds the
already-collapsed 3D samples back into the constructor, whose
4-dimensionality check then raises `TypeError` for every cube. -/
theorem empty_like_always_errors :
    ∀ c : Cube, c.empty_like = Except.error err4D :=
  fun _ => rfl

/-- Claim C4 (refuted; code bug).  The validity mask is indeed the
elementwise `isnan` test on the raw input, but it keeps the raw input's 4D
shape `(1,4,5,6)`, while the collapsed samples are 3-dimensional with shape
`(4,5,6)`; the claimed invariant `samples.shape == validity_mask.shape`
fails for every constructed cube. -/
theorem mask_is_raw_isnan_but_4d :
    cube456.maskShape = [1, 4, 5, 6] ∧
    (∀ ix, cube456.mask ix = (raw456.val ix).isNan) ∧
    [cube456.data.shape 0, cube456.data.shape 1, cube456.data.shape 2] =
      [4, 5, 6] ∧
    cube456.maskShape ≠ [4, 5, 6] :=
  ⟨rfl, fun _ => rfl, rfl, by decide⟩

/-- Claim C5 (refuted; code bug).  The negative-lower half of the claim
behaves as stated when the call completes, but the excess-upper half does
not: any `upper[i] > shape[i]` makes line 85 index the shape tuple with a
boolean array, raising `TypeError` after the warning, so the upper bound is
never clamped to the shape.  In particular the scenario
`resolve(lower=(-1,0,0), upper=(100,100,100))` on the `(4,5,6)` cube emits
its two warnings and then raises, instead of returning `((0,0,0),(4,5,6))`
with two corrections logged. -/
theorem slice_excess_upper_raises :
    (∀ (c : Cube) (l u : Fin 3 → ℤ) (i : Fin 3), c.shape3 i < u i →
      (c._slice (some l) (some u)).result = Except.error errTuple) ∧
    (cube456._slice (some ![-1, 0, 0]) (some ![100, 100, 100])).result =
      Except.error errTuple ∧
    (cube456._slice (some ![-1, 0, 0]) (some ![100, 100, 100])).warnings = 2 :=
  ⟨fun c l u i h => slice_error_of_upper_excess c l u i h, rfl, rfl⟩

/-- Witness for C5's quantified part at a concrete input: on the `(4,5,6)`
cube, `upper=(7,5,6)` exceeds the shape on axis 0 and the call raises. -/
theorem slice_excess_upper_raises_witness :
    (cube456._slice (some ![0, 0, 0]) (some ![7, 5, 6])).result =
      Except.error errTuple :=
  slice_excess_upper_raises.1 cube456 ![0, 0, 0] ![7, 5, 6] 0 (by decide)

/-- Claim C6 (confirmed).  For in-bounds `lower` and `upper` (componentwise
within `[0, shape[i]]`), no correction branch fires: `_slice` completes and
returns the bounds unchanged, emitting no warning. -/
theorem slice_identity_inbounds (c : Cube) (l u : Fin 3 → ℤ)
    (hl : ∀ i, 0 ≤ l i ∧ l i ≤ c.shape3 i)
    (hu : ∀ i, 0 ≤ u i ∧ u i ≤ c.shape3 i) :
    ∃ r, (c._slice (some l) (some u)).result = Except.ok r ∧
      (∀ i, r.lo i = l i) ∧ (∀ i, r.hi i = u i) ∧
      (c._slice (some l) (some u)).warnings = 0 := by
  obtain ⟨r, hr, hlo, hhi, hw⟩ :=
    slice_ok_of_le c l u (fun i => (hl i).2) (fun i => (hu i).2)
  refine ⟨r, hr, fun i => ?_, hhi, ?_⟩
  · rw [hlo i]; have h1 := hl i; have h2 := hu i; split_ifs <;> omega
  · rw [hw]
    have a0 := hl 0; have a1 := hl 1; have a2 := hl 2
    have b0 := hu 0; have b1 := hu 1; have b2 := hu 2
    split_ifs <;> omega

/-- Witness for C6 at a concrete input: cube of shape `(4,5,6)`,
`lower=(1,2,3)`, `upper=(4,5,6)`. -/
theorem slice_identity_inbounds_witness :
    ∃ r, (cube456._slice (some ![1, 2, 3]) (some ![4, 5, 6])).result =
        Except.ok r ∧
      r.lo 0 = 1 ∧ r.hi 2 = 6 ∧
      (cube456._slice (some ![1, 2, 3]) (some ![4, 5, 6])).warnings = 0 := by
  obtain ⟨r, hr, hlo, hhi, hw⟩ :=
    slice_identity_inbounds cube456 ![1, 2, 3] ![4, 5, 6] (by decide) (by decide)
  exact ⟨r, hr, hlo 0, hhi 2, hw⟩

/-- Claim C9, amended (corrected).  Construction fails, producing no object,
exactly when the raw input is not 4-dimensional (given a header with the
required entries).  The original claim's addition that this is the only hard
failure in the core is refuted by `constructed_cube_empty_like_raises`. -/
theorem init_errors_iff_not_4d (raw : NDArr) (meta : Meta) :
    (∃ e, Cube.init raw meta = Except.error e) ↔ raw.shape.length ≠ 4 := by
  unfold Cube.init
  split_ifs with h
  · exact iff_of_true ⟨err4D, rfl⟩ h
  · refine iff_of_false ?_ (fun hc => hc (not_not.mp h))
    rintro ⟨e, he⟩
    exact he

/-- Counterexample to claim C9 as stated: a successfully constructed cube on
which a core operation other than construction raises (`empty_like`). -/
theorem constructed_cube_empty_like_raises :
    Cube.init raw456 meta0 = Except.ok cube456 ∧
    cube456.empty_like = Except.error err4D :=
  ⟨rfl, rfl⟩

/-- Claim C10 (confirmed).  On a cube whose samples are all NaN, `max` and
`min` raise (`nanargmax`/`nanargmin` on all-NaN input) instead of returning
a sentinel or an arbitrary pair; the model is pure, so the cube itself is
untouched by the failed call. -/
theorem extrema_error_on_all_nan (c : Cube)
    (h : ∀ v : Fin 3 → ℕ, (∀ i, v i < c.data.shape i) → c.data.val v = FV.nan) :
    c.max = Except.error errAllNaN ∧ c.min = Except.error errAllNaN := by
  have hve : c.validEntries = [] := by
    unfold Cube.validEntries
    rw [List.filterMap_eq_nil_iff]
    intro v hv
    rw [h v (mem_indexList_lt hv)]
  exact ⟨by rw [Cube.max, hve], by rw [Cube.min, hve]⟩

/-- Witness for C10: the all-NaN cube `cubeNaN`. -/
theorem extrema_error_on_all_nan_witness :
    cubeNaN.max = Except.error errAllNaN ∧
    cubeNaN.min = Except.error errAllNaN :=
  extrema_error_on_all_nan cubeNaN (fun _ _ => rfl)

-- Helpers for the `add_flux` claims.

theorem shape3_nonneg (c : Cube) (i : Fin 3) : 0 ≤ c.shape3 i :=
  Int.natCast_nonneg _

theorem shapeZ_nonneg (a : Arr3) (i : Fin 3) : 0 ≤ a.shapeZ i :=
  Int.natCast_nonneg _

/-- Claim C7 (confirmed).  For a requested region fully inside the cube's
bounds (`0 ≤ lower[i]`, `upper[i] ≤ shape[i]`, boundary contact allowed)
whose extents equal the patch shape, `add_flux` succeeds, adds the whole
patch elementwise to `samples[region]` (sample at `v` receives patch cell
`v - lower`), and leaves every sample outside the region unchanged. -/
theorem add_flux_inbounds_adds_patch (c : Cube) (flux : Arr3) (l u : Fin 3 → ℤ)
    (hl : ∀ i, 0 ≤ l i) (hu : ∀ i, u i ≤ c.shape3 i)
    (hfs : ∀ i, flux.shapeZ i = u i - l i) :
    ∃ c', c.add_flux flux (some l) (some u) = Except.ok c' ∧
      (∀ i, c'.data.shape i = c.data.shape i) ∧
      (∀ v : Fin 3 → ℕ,
        (∀ i, l i ≤ (v i : ℤ) ∧ (v i : ℤ) < u i) →
        c'.data.val v =
          FV.add (c.data.val v)
            (flux.val (fun i => ((v i : ℤ) - l i).toNat))) ∧
      (∀ v : Fin 3 → ℕ,
        ¬(∀ i, l i ≤ (v i : ℤ) ∧ (v i : ℤ) < u i) →
        c'.data.val v = c.data.val v) := by
  have hlu : ∀ i, l i ≤ u i := fun i => by
    have h1 := hfs i; have h2 := shapeZ_nonneg flux i; omega
  obtain ⟨r, hr, hlo0, hhi, hw⟩ :=
    slice_ok_of_le c l u (fun i => le_trans (hlu i) (hu i)) hu
  have hlo : ∀ i, r.lo i = l i := by
    intro i; rw [hlo0 i]
    have h1 := hl i; have h2 := hlu i
    split_ifs <;> omega
  have hfl : ∀ i, fluxLo flux r i = 0 := by
    intro i; unfold fluxLo; rw [hlo i, hhi i]
    split_ifs with h0
    · have := hfs i; omega
    · rfl
  have hfu : ∀ i, c.fluxHi flux r i = flux.shapeZ i := by
    intro i; unfold Cube.fluxHi; rw [hlo i, hhi i]
    split_ifs with h0
    · have := hfs i; omega
    · rfl
  have hok : c.fluxOk flux r := by
    intro i
    rw [hlo i, hhi i, hfl i, hfu i]
    have h1 := hfs i; have h2 := shapeZ_nonneg flux i
    have h3 := hl i; have h4 := hu i
    omega
  unfold Cube.add_flux
  rw [hr]
  dsimp only
  rw [if_pos hok]
  refine ⟨_, rfl, fun i => rfl, ?_, ?_⟩
  · intro v hv
    have hcond : ∀ i, r.lo i ≤ (v i : ℤ) ∧ (v i : ℤ) < r.hi i := fun i => by
      rw [hlo i, hhi i]; exact hv i
    have harg : (fun i => ((v i : ℤ) - r.lo i + fluxLo flux r i).toNat) =
        (fun i => ((v i : ℤ) - l i).toNat) := by
      funext i; rw [hlo i, hfl i, add_zero]
    dsimp only
    rw [if_pos hcond, harg]
  · intro v hv
    have hcond : ¬(∀ i, r.lo i ≤ (v i : ℤ) ∧ (v i : ℤ) < r.hi i) := fun hc =>
      hv (fun i => by rw [← hlo i, ← hhi i]; exact hc i)
    dsimp only
    rw [if_neg hcond]

/-- Witness for C7: on the `(4,5,6)` cube, add the `1×1×1` patch holding `2`
to the region `[1,2)×[2,3)×[3,4)`; the covered sample becomes `0 + 2` and an
outside sample keeps its value. -/
theorem add_flux_inbounds_adds_patch_witness :
    ∃ c', cube456.add_flux flux111 (some ![1, 2, 3]) (some ![2, 3, 4]) =
        Except.ok c' ∧
      c'.data.val ![1, 2, 3] = FV.fin 2 ∧
      c'.data.val ![0, 0, 0] = FV.fin 0 := by
  obtain ⟨c', heq, hsh, hin, hout⟩ :=
    add_flux_inbounds_adds_patch cube456 flux111 ![1, 2, 3] ![2, 3, 4]
      (by decide) (by decide) (by decide)
  refine ⟨c', heq, ?_, ?_⟩
  · rw [hin ![1, 2, 3] (by decide)]; decide
  · rw [hout ![0, 0, 0] (by decide)]; decide

/-- Counterexample to claim C8 as stated.  On the `(4,5,6)` cube, the region
`lower=(-1,0,0), upper=(4,5,6)` overhangs only the lower edge of axis 0 (by
`k = 1`) and is in-bounds elsewhere, and the `(5,5,6)` patch matches the
requested extents; the claim then promises that the trailing 4 cells of the
patch are added.  But the crop logic also fires on axis 0's upper side
(the resolved region ends exactly at the cube edge, though nothing was
clamped there), shortening the patch range to `[1,4)` — 3 cells against a
4-cell region — so the in-place addition fails with a broadcast error and
nothing is added. -/
theorem add_flux_overhang_flush_edge_errors :
    cube456.add_flux flux556 (some ![-1, 0, 0]) (some ![4, 5, 6]) =
      Except.error errBroadcast := rfl

/-- Claim C8, amended (corrected).  Suppose the requested region overhangs
exactly one cube edge, by `k` cells, on one axis `a`, is in-bounds on the
other axes, and the patch shape equals the requested extents.  If the
overhang is at the LOWER edge and the upper bound on axis `a` is strictly
inside the cube — a proviso the original claim lacks, see
`add_flux_overhang_flush_edge_errors` — then `add_flux` succeeds and adds
exactly the overlapping `extent − k` cells of the patch, namely its
trailing sub-range (sample `v` receives patch cell `v a + k` on axis `a`),
discarding the patch cells beyond the edge and modifying no sample outside
the overlap.  If the overhang is at the UPPER edge, then — contrary to the
original claim — no leading sub-range is ever added: region resolution
itself raises `TypeError` at line 85 (the shape tuple is indexed with a
boolean array) and `add_flux` propagates that error, adding nothing. -/
theorem add_flux_single_overhang_crops :
    (∀ (c : Cube) (flux : Arr3) (l u : Fin 3 → ℤ) (a : Fin 3) (k : ℤ),
      0 < k → l a = -k → 0 ≤ u a → u a < c.shape3 a →
      (∀ i, i ≠ a → 0 ≤ l i ∧ u i ≤ c.shape3 i) →
      (∀ i, flux.shapeZ i = u i - l i) →
      ∃ c', c.add_flux flux (some l) (some u) = Except.ok c' ∧
        (∀ v : Fin 3 → ℕ,
          (∀ i, (if i = a then 0 else l i) ≤ (v i : ℤ) ∧ (v i : ℤ) < u i) →
          c'.data.val v =
            FV.add (c.data.val v)
              (flux.val (fun i =>
                if i = a then ((v i : ℤ) + k).toNat
                else ((v i : ℤ) - l i).toNat))) ∧
        (∀ v : Fin 3 → ℕ,
          ¬(∀ i, (if i = a then 0 else l i) ≤ (v i : ℤ) ∧ (v i : ℤ) < u i) →
          c'.data.val v = c.data.val v)) ∧
    (∀ (c : Cube) (flux : Arr3) (l u : Fin 3 → ℤ) (a : Fin 3) (k : ℤ),
      0 < k → u a = c.shape3 a + k →
      c.add_flux flux (some l) (some u) = Except.error errTuple) := by
  constructor
  · intro c flux l u a k hk hla hua0 hua hib hfs
    have hlu : ∀ i, i ≠ a → l i ≤ u i := fun i hi => by
      have h1 := hfs i; have h2 := shapeZ_nonneg flux i; omega
    have hsa := shape3_nonneg c a
    have hl_le : ∀ i, l i ≤ c.shape3 i := by
      intro i; by_cases hia : i = a
      · subst hia; omega
      · have h1 := hib i hia; have h2 := hlu i hia; omega
    have hu_le : ∀ i, u i ≤ c.shape3 i := by
      intro i; by_cases hia : i = a
      · subst hia; omega
      · exact (hib i hia).2
    obtain ⟨r, hr, hlo0, hhi, hw⟩ := slice_ok_of_le c l u hl_le hu_le
    have hlo : ∀ i, r.lo i = if i = a then 0 else l i := by
      intro i; rw [hlo0 i]
      by_cases hia : i = a
      · subst hia
        have e : (if i = i then (0 : ℤ) else l i) = 0 := if_pos rfl
        rw [e]; split_ifs <;> omega
      · have e : (if i = a then (0 : ℤ) else l i) = l i := if_neg hia
        rw [e]
        have h1 := hib i hia; have h2 := hlu i hia
        split_ifs <;> omega
    have hfl : ∀ i, fluxLo flux r i = if i = a then k else 0 := by
      intro i; unfold fluxLo; rw [hlo i, hhi i]
      by_cases hia : i = a
      · subst hia
        have e : (if i = i then (0 : ℤ) else l i) = 0 := if_pos rfl
        have e2 : (if i = i then k else (0 : ℤ)) = k := if_pos rfl
        rw [e, e2, if_pos rfl]
        have := hfs i; omega
      · have e : (if i = a then (0 : ℤ) else l i) = l i := if_neg hia
        have e2 : (if i = a then k else (0 : ℤ)) = 0 := if_neg hia
        rw [e, e2]
        split_ifs with h2
        · have := hfs i; omega
        · rfl
    have hfu : ∀ i, c.fluxHi flux r i = flux.shapeZ i := by
      intro i; unfold Cube.fluxHi; rw [hlo i, hhi i]
      by_cases hia : i = a
      · subst hia
        have e : (if i = i then (0 : ℤ) else l i) = 0 := if_pos rfl
        rw [e]
        split_ifs with h2
        · omega
        · rfl
      · have e : (if i = a then (0 : ℤ) else l i) = l i := if_neg hia
        rw [e]
        split_ifs with h2
        · have := hfs i; omega
        · rfl
    have hok : c.fluxOk flux r := by
      intro i
      rw [hlo i, hhi i, hfl i, hfu i]
      by_cases hia : i = a
      · subst hia
        have e : (if i = i then (0 : ℤ) else l i) = 0 := if_pos rfl
        have e2 : (if i = i then k else (0 : ℤ)) = k := if_pos rfl
        rw [e, e2]
        have h1 := hfs i; have h2 := shapeZ_nonneg flux i
        omega
      · have e : (if i = a then (0 : ℤ) else l i) = l i := if_neg hia
        have e2 : (if i = a then k else (0 : ℤ)) = 0 := if_neg hia
        rw [e, e2]
        have h1 := hfs i; have h2 := shapeZ_nonneg flux i
        have h3 := hib i hia
        omega
    unfold Cube.add_flux
    rw [hr]
    dsimp only
    rw [if_pos hok]
    refine ⟨_, rfl, ?_, ?_⟩
    · intro v hv
      have hcond : ∀ i, r.lo i ≤ (v i : ℤ) ∧ (v i : ℤ) < r.hi i := fun i => by
        rw [hlo i, hhi i]; exact hv i
      have harg : (fun i => ((v i : ℤ) - r.lo i + fluxLo flux r i).toNat) =
          (fun i => if i = a then ((v i : ℤ) + k).toNat
            else ((v i : ℤ) - l i).toNat) := by
        funext i; rw [hlo i, hfl i]
        by_cases hia : i = a
        · subst hia
          have e : (if i = i then (0 : ℤ) else l i) = 0 := if_pos rfl
          have e2 : (if i = i then k else (0 : ℤ)) = k := if_pos rfl
          rw [e, e2, if_pos rfl]
          omega
        · have e : (if i = a then (0 : ℤ) else l i) = l i := if_neg hia
          have e2 : (if i = a then k else (0 : ℤ)) = 0 := if_neg hia
          rw [e, e2, if_neg hia, add_zero]
      dsimp only
      rw [if_pos hcond, harg]
    · intro v hv
      have hcond : ¬(∀ i, r.lo i ≤ (v i : ℤ) ∧ (v i : ℤ) < r.hi i) := fun hc =>
        hv (fun i => by rw [← hlo i, ← hhi i]; exact hc i)
      dsimp only
      rw [if_neg hcond]
  · intro c flux l u a k hk hua
    unfold Cube.add_flux
    rw [slice_error_of_upper_excess c l u a (by omega)]

/-- Witness for the amended C8 on the `(4,5,6)` cube.  Lower overhang:
region `(-1,0,0)..(3,5,6)` (axis 0 overhangs the lower edge by 1, upper
bound 3 strictly inside), patch `4×5×6`: sample `(0,0,0)` gets the trailing
patch cell and sample `(3,0,0)` is untouched.  Upper overhang: region
`(1,0,0)..(6,5,6)` (axis 0 exceeds the cube's extent 4 by 2): the call
raises the tuple-indexing `TypeError`. -/
theorem add_flux_single_overhang_crops_witness :
    (∃ c', cube456.add_flux flux456 (some ![-1, 0, 0]) (some ![3, 5, 6]) =
        Except.ok c' ∧
      c'.data.val ![0, 0, 0] = FV.fin 1 ∧
      c'.data.val ![3, 0, 0] = FV.fin 0) ∧
    cube456.add_flux flux556 (some ![1, 0, 0]) (some ![6, 5, 6]) =
      Except.error errTuple := by
  constructor
  · obtain ⟨c', heq, hin, hout⟩ :=
      add_flux_single_overhang_crops.1 cube456 flux456 ![-1, 0, 0] ![3, 5, 6] 0 1
        (by decide) (by decide) (by decide) (by decide) (by decide) (by decide)
    refine ⟨c', heq, ?_, ?_⟩
    · rw [hin ![0, 0, 0] (by decide)]; decide
    · rw [hout ![3, 0, 0] (by decide)]; decide
  · exact add_flux_single_overhang_crops.2 cube456 flux556 ![1, 0, 0] ![6, 5, 6]
      0 2 (by decide) (by decide)
